import Mathlib

/-!
Verification of the KeyRetriever OpenAI proxy resilience layer.

Shallow embedding of:
 - `src/services/rateLimiter.ts` (token-bucket rate limiter)
 - `src/services/concurrency.ts` (counting semaphore with FIFO wait queue)
 - `src/services/openAIService.ts` (retrying upstream client)
 - `src/services/validate.ts` (request validator)
 - `src/functions/openaiProxy.ts` (proxy orchestrator)

Timestamps are integer milliseconds; JS floating-point numbers are modelled
as rationals (ℚ).
-/

/-! ## Token-bucket rate limiter (rateLimiter.ts) -/

/-- One token bucket, mirroring the `TokenBucket` interface:
`tokens` (float), `capacity`, `refillRate` (tokens/second), `lastRefill` (ms). -/
structure TokenBucket where
  tokens : ℚ
  capacity : ℚ
  refillRate : ℚ
  lastRefill : ℤ
deriving Repr, DecidableEq

/-- The `RateLimiter` class state: its two configured rates and the
`buckets` map (modelled as an association list keyed by string). -/
structure RateLimiter where
  globalRps : ℚ
  userRps : ℚ
  buckets : List (String × TokenBucket)
deriving Repr, DecidableEq

/-- Association-list lookup standing for `Map.get`. -/
def lookupBucket : List (String × TokenBucket) → String → Option TokenBucket
  | [], _ => none
  | (k, b) :: rest, key => if k = key then some b else lookupBucket rest key

/-- Association-list update standing for `Map.set` (replace if present,
append if absent). -/
def setBucket : List (String × TokenBucket) → String → TokenBucket → List (String × TokenBucket)
  | [], key, b => [(key, b)]
  | (k, b0) :: rest, key, b =>
      if k = key then (key, b) :: rest else (k, b0) :: setBucket rest key b

/-- Capacity chosen by `getBucket` for a fresh key:
`key === 'global' ? this.globalRps : this.userRps`. -/
def RateLimiter.capacityFor (rl : RateLimiter) (key : String) : ℚ :=
  if key = "global" then rl.globalRps else rl.userRps

/-- The bucket `getBucket` creates on first reference to a key: full tokens,
`refillRate = capacity`, `lastRefill = Date.now()`. -/
def RateLimiter.freshBucket (rl : RateLimiter) (key : String) (now : ℤ) : TokenBucket :=
  let c := rl.capacityFor key
  { tokens := c, capacity := c, refillRate := c, lastRefill := now }

/-- Source `refillBucket`: if time has elapsed, add `(deltaMs / 1000) * refillRate`
tokens, capped at `capacity`, and record the refill time. -/
def refillBucket (b : TokenBucket) (now : ℤ) : TokenBucket :=
  let deltaMs : ℤ := now - b.lastRefill
  if 0 < deltaMs then
    let tokensToAdd : ℚ := ((deltaMs : ℚ) / 1000) * b.refillRate
    { b with tokens := min b.capacity (b.tokens + tokensToAdd), lastRefill := now }
  else b

/-- Source `RateLimiter.allow(key, cost)`: get-or-create the bucket, lazily refill
it, then consume `cost` tokens if available. Returns the updated limiter
state and the admit/deny boolean. -/
def RateLimiter.allow (rl : RateLimiter) (key : String) (cost : ℚ) (now : ℤ) :
    RateLimiter × Bool :=
  let b0 := match lookupBucket rl.buckets key with
    | some b => b
    | none => rl.freshBucket key now
  let b1 := refillBucket b0 now
  if cost ≤ b1.tokens then
    ({ rl with buckets := setBucket rl.buckets key { b1 with tokens := b1.tokens - cost } }, true)
  else
    ({ rl with buckets := setBucket rl.buckets key b1 }, false)

/-- A fresh limiter as built by the constructor (no buckets yet). -/
def RateLimiter.init (globalRps userRps : ℚ) : RateLimiter :=
  { globalRps := globalRps, userRps := userRps, buckets := [] }

/-- One observed `allow` call: its key, cost and wall-clock time. -/
structure AllowEvent where
  key : String
  cost : ℚ
  now : ℤ
deriving Repr, DecidableEq

/-- Run a sequence of `allow` calls, threading the limiter state. -/
def runLimiter (rl : RateLimiter) : List AllowEvent → RateLimiter
  | [] => rl
  | e :: rest => runLimiter (rl.allow e.key e.cost e.now).1 rest

/-- The bounds the spec asserts of every bucket, plus the refill-rate sign
fact needed to preserve them. -/
def BucketOk (b : TokenBucket) : Prop :=
  0 ≤ b.tokens ∧ b.tokens ≤ b.capacity ∧ 0 ≤ b.refillRate

/-- Limiter-wide invariant: nonnegative configured rates and every stored
bucket in bounds. -/
def LimiterOk (rl : RateLimiter) : Prop :=
  0 ≤ rl.globalRps ∧ 0 ≤ rl.userRps ∧ ∀ kb ∈ rl.buckets, BucketOk kb.2

/-- Capacity governing `key` in the current state: the stored bucket's
capacity, or the capacity a fresh bucket would get. -/
def RateLimiter.capacityOfKey (rl : RateLimiter) (key : String) : ℚ :=
  match lookupBucket rl.buckets key with
  | some b => b.capacity
  | none => rl.capacityFor key

theorem capacityFor_nonneg (rl : RateLimiter) (key : String)
    (hg : 0 ≤ rl.globalRps) (hu : 0 ≤ rl.userRps) : 0 ≤ rl.capacityFor key := by
  unfold RateLimiter.capacityFor
  split <;> assumption

theorem freshBucket_ok (rl : RateLimiter) (key : String) (now : ℤ)
    (hg : 0 ≤ rl.globalRps) (hu : 0 ≤ rl.userRps) :
    BucketOk (rl.freshBucket key now) := by
  have h := capacityFor_nonneg rl key hg hu
  exact ⟨h, le_refl _, h⟩

theorem refillBucket_ok (b : TokenBucket) (now : ℤ) (h : BucketOk b) :
    BucketOk (refillBucket b now) := by
  obtain ⟨h0, hc, hr⟩ := h
  unfold refillBucket
  dsimp only
  split
  · rename_i hdelta
    refine ⟨?_, ?_, hr⟩
    · have hadd : (0 : ℚ) ≤ ((now - b.lastRefill : ℤ) : ℚ) / 1000 * b.refillRate := by
        apply mul_nonneg
        · apply div_nonneg _ (by norm_num)
          exact_mod_cast le_of_lt hdelta
        · exact hr
      simp only [le_min_iff]
      exact ⟨le_trans h0 hc, by linarith⟩
    · exact min_le_left _ _
  · exact ⟨h0, hc, hr⟩

theorem refillBucket_capacity (b : TokenBucket) (now : ℤ) :
    (refillBucket b now).capacity = b.capacity := by
  unfold refillBucket
  dsimp only
  split <;> rfl

theorem refillBucket_le_capacity (b : TokenBucket) (now : ℤ) (h : b.tokens ≤ b.capacity) :
    (refillBucket b now).tokens ≤ (refillBucket b now).capacity := by
  unfold refillBucket
  dsimp only
  split
  · exact min_le_left _ _
  · exact h

theorem lookupBucket_mem {bs : List (String × TokenBucket)} {key : String} {b : TokenBucket}
    (h : lookupBucket bs key = some b) : (key, b) ∈ bs := by
  induction bs with
  | nil => simp [lookupBucket] at h
  | cons kb rest ih =>
    obtain ⟨k0, b0⟩ := kb
    unfold lookupBucket at h
    split at h
    · rename_i heq
      obtain rfl : b0 = b := Option.some_injective _ h
      subst heq
      exact List.mem_cons_self _ _
    · exact List.mem_cons_of_mem _ (ih h)

theorem setBucket_mem {bs : List (String × TokenBucket)} {key : String} {b : TokenBucket}
    {kb : String × TokenBucket} (h : kb ∈ setBucket bs key b) :
    kb ∈ bs ∨ kb = (key, b) := by
  induction bs with
  | nil => simp [setBucket] at h; simp [h]
  | cons kb0 rest ih =>
    unfold setBucket at h
    split at h
    · rcases List.mem_cons.mp h with h1 | h1
      · right; exact h1
      · left; exact List.mem_cons_of_mem _ h1
    · rcases List.mem_cons.mp h with h1 | h1
      · left; exact List.mem_cons.mpr (Or.inl h1)
      · rcases ih h1 with h2 | h2
        · left; exact List.mem_cons_of_mem _ h2
        · right; exact h2

/-- The `allow` call preserves the limiter invariant when the requested cost is
nonnegative. -/
theorem allow_preserves_ok (rl : RateLimiter) (key : String) (cost : ℚ) (now : ℤ)
    (hok : LimiterOk rl) (hcost : 0 ≤ cost) :
    LimiterOk (rl.allow key cost now).1 := by
  obtain ⟨hg, hu, hb⟩ := hok
  have hb0 : BucketOk (match lookupBucket rl.buckets key with
      | some b => b
      | none => rl.freshBucket key now) := by
    cases hl : lookupBucket rl.buckets key with
    | some b => exact hb _ (lookupBucket_mem hl)
    | none => exact freshBucket_ok rl key now hg hu
  have hb1 : BucketOk (refillBucket (match lookupBucket rl.buckets key with
      | some b => b
      | none => rl.freshBucket key now) now) := refillBucket_ok _ now hb0
  unfold RateLimiter.allow
  dsimp only
  split
  · rename_i htok
    refine ⟨hg, hu, ?_⟩
    intro kb hkb
    dsimp only at hkb
    rcases setBucket_mem hkb with h1 | h1
    · exact hb _ h1
    · subst h1
      obtain ⟨h0, hc, hr⟩ := hb1
      exact ⟨by simpa using sub_nonneg.mpr htok, by dsimp only; linarith, hr⟩
  · refine ⟨hg, hu, ?_⟩
    intro kb hkb
    dsimp only at hkb
    rcases setBucket_mem hkb with h1 | h1
    · exact hb _ h1
    · subst h1; exact hb1

/-- Running any sequence of nonnegative-cost `allow` calls preserves the
invariant. -/
theorem runLimiter_preserves_ok (events : List AllowEvent) (rl : RateLimiter)
    (hok : LimiterOk rl) (hcosts : ∀ e ∈ events, 0 ≤ e.cost) :
    LimiterOk (runLimiter rl events) := by
  induction events generalizing rl with
  | nil => exact hok
  | cons e rest ih =>
    unfold runLimiter
    exact ih _ (allow_preserves_ok rl e.key e.cost e.now hok (hcosts e (by simp)))
      (fun e' he' => hcosts e' (List.mem_cons_of_mem _ he'))

/-- C2: for every sequence of `allow(key, cost)` calls with nonnegative
costs, starting from a fresh limiter with nonnegative configured rates,
every bucket satisfies `0 ≤ tokens ≤ capacity` at the observation point
after the sequence. -/
theorem rateLimiter_tokens_in_bounds (g u : ℚ) (events : List AllowEvent)
    (hg : 0 ≤ g) (hu : 0 ≤ u) (hcosts : ∀ e ∈ events, 0 ≤ e.cost) :
    ∀ kb ∈ (runLimiter (RateLimiter.init g u) events).buckets,
      0 ≤ kb.2.tokens ∧ kb.2.tokens ≤ kb.2.capacity := by
  have h := runLimiter_preserves_ok events (RateLimiter.init g u)
    ⟨hg, hu, by intro kb hkb; simp [RateLimiter.init] at hkb⟩ hcosts
  intro kb hkb
  obtain ⟨-, -, hb⟩ := h
  obtain ⟨h0, hc, -⟩ := hb kb hkb
  exact ⟨h0, hc⟩

theorem rateLimiter_tokens_in_bounds_witness :
    (0:ℚ) ≤ 8 ∧ (0:ℚ) ≤ 2 ∧
    (∀ e ∈ [AllowEvent.mk "global" 1 0, AllowEvent.mk "global" 1 100], (0:ℚ) ≤ e.cost) ∧
    ∀ kb ∈ (runLimiter (RateLimiter.init 8 2)
        [AllowEvent.mk "global" 1 0, AllowEvent.mk "global" 1 100]).buckets,
      0 ≤ kb.2.tokens ∧ kb.2.tokens ≤ kb.2.capacity := by
  refine ⟨by norm_num, by norm_num, by intro e he; fin_cases he <;> norm_num, ?_⟩
  exact rateLimiter_tokens_in_bounds 8 2 _ (by norm_num) (by norm_num)
    (by intro e he; fin_cases he <;> norm_num)

/-- The bucket `allow` starts from has the capacity reported by
`capacityOfKey`. -/
theorem allow_start_capacity (rl : RateLimiter) (key : String) (now : ℤ) :
    (match lookupBucket rl.buckets key with
      | some b => b
      | none => rl.freshBucket key now).capacity = rl.capacityOfKey key := by
  unfold RateLimiter.capacityOfKey
  cases lookupBucket rl.buckets key with
  | some b => rfl
  | none => rfl

/-- A single `allow` call is denied whenever the cost strictly exceeds the
capacity governing the key, provided the limiter invariant holds. -/
theorem allow_denies_over_capacity (rl : RateLimiter) (key : String) (cost : ℚ) (now : ℤ)
    (hok : LimiterOk rl) (hcap : rl.capacityOfKey key < cost) :
    (rl.allow key cost now).2 = false := by
  obtain ⟨hg, hu, hb⟩ := hok
  have hb0 : BucketOk (match lookupBucket rl.buckets key with
      | some b => b
      | none => rl.freshBucket key now) := by
    cases hl : lookupBucket rl.buckets key with
    | some b => exact hb _ (lookupBucket_mem hl)
    | none => exact freshBucket_ok rl key now hg hu
  have hle : (refillBucket (match lookupBucket rl.buckets key with
      | some b => b
      | none => rl.freshBucket key now) now).tokens ≤ rl.capacityOfKey key := by
    have h1 := refillBucket_le_capacity _ now hb0.2.1
    have h2 := refillBucket_capacity (match lookupBucket rl.buckets key with
      | some b => b
      | none => rl.freshBucket key now) now
    rw [h2, allow_start_capacity rl key now] at h1
    exact h1
  unfold RateLimiter.allow
  dsimp only
  split
  · rename_i htok
    exact absurd (le_trans htok hle) (not_le.mpr hcap)
  · rfl

/-- C10: after any sequence of nonnegative-cost `allow` calls from a fresh
limiter with nonnegative rates, a further `allow(key, cost)` whose cost
strictly exceeds the capacity governing that key returns `false`, whatever
the current time (refill is capped at capacity, so rest time is irrelevant). -/
theorem rateLimiter_deny_cost_above_capacity (g u : ℚ) (events : List AllowEvent)
    (key : String) (cost : ℚ) (now : ℤ)
    (hg : 0 ≤ g) (hu : 0 ≤ u) (hcosts : ∀ e ∈ events, 0 ≤ e.cost)
    (hcap : (runLimiter (RateLimiter.init g u) events).capacityOfKey key < cost) :
    ((runLimiter (RateLimiter.init g u) events).allow key cost now).2 = false := by
  have hok := runLimiter_preserves_ok events (RateLimiter.init g u)
    ⟨hg, hu, by intro kb hkb; simp [RateLimiter.init] at hkb⟩ hcosts
  exact allow_denies_over_capacity _ key cost now hok hcap

theorem rateLimiter_deny_cost_above_capacity_witness :
    ((runLimiter (RateLimiter.init 8 2) []).allow "global" 9 1000000000).2 = false := by
  apply rateLimiter_deny_cost_above_capacity 8 2 [] "global" 9 1000000000
    (by norm_num) (by norm_num) (by intro e he; simp at he)
  simp [runLimiter, RateLimiter.init, RateLimiter.capacityOfKey, lookupBucket,
    RateLimiter.capacityFor]
  norm_num

/-! ## Counting semaphore with FIFO wait queue (concurrency.ts) -/

/-- The `Semaphore` class state: available `permits` and the `waitQueue`
of pending acquirers (identified by numbers, in arrival order). -/
structure Semaphore where
  permits : ℤ
  waitQueue : List ℕ
deriving Repr, DecidableEq

/-- Source `acquire()`: if a permit is available take it (immediate grant),
otherwise push the acquirer onto the wait queue. Returns the new state and
`some id` when the caller was granted immediately. -/
def Semaphore.acquire (s : Semaphore) (id : ℕ) : Semaphore × Option ℕ :=
  if 0 < s.permits then
    ({ s with permits := s.permits - 1 }, some id)
  else
    ({ s with waitQueue := s.waitQueue ++ [id] }, none)

/-- The release function built by `createRelease`: return the permit
(`permits++`), then `shift` the queue; a dequeued waiter immediately runs,
taking the permit back (`permits--`) and being granted. Returns the new
state and `some w` when waiter `w` was granted. -/
def Semaphore.release (s : Semaphore) : Semaphore × Option ℕ :=
  let s1 : Semaphore := { s with permits := s.permits + 1 }
  match s1.waitQueue with
  | [] => (s1, none)
  | w :: rest => ({ permits := s1.permits - 1, waitQueue := rest }, some w)

/-- Perform a list of `acquire` calls in order, collecting immediate grants. -/
def Semaphore.acquireAll (s : Semaphore) : List ℕ → Semaphore × List ℕ
  | [] => (s, [])
  | id :: rest =>
    let p := s.acquire id
    let q := p.1.acquireAll rest
    (q.1, p.2.toList ++ q.2)

/-- Perform `n` `release` calls in order, collecting the granted waiters in
grant order. -/
def Semaphore.releaseN : ℕ → Semaphore → Semaphore × List ℕ
  | 0, s => (s, [])
  | n + 1, s =>
    let p := s.release
    let q := Semaphore.releaseN n p.1
    (q.1, p.2.toList ++ q.2)

theorem acquireAll_no_permits (ids : List ℕ) (q : List ℕ) :
    (Semaphore.acquireAll ⟨0, q⟩ ids) = (⟨0, q ++ ids⟩, []) := by
  induction ids generalizing q with
  | nil => simp [Semaphore.acquireAll]
  | cons id rest ih =>
    simp [Semaphore.acquireAll, Semaphore.acquire, ih (q ++ [id])]

theorem releaseN_no_permits (q : List ℕ) :
    (Semaphore.releaseN q.length ⟨0, q⟩).2 = q := by
  induction q with
  | nil => simp [Semaphore.releaseN]
  | cons w rest ih =>
    show (Semaphore.releaseN (rest.length + 1) ⟨0, w :: rest⟩).2 = w :: rest
    have hrel : (Semaphore.mk 0 (w :: rest)).release = (⟨0, rest⟩, some w) := by
      simp [Semaphore.release]
    simp [Semaphore.releaseN, hrel, ih]

/-- C3: from a semaphore with all permits taken and an empty queue, a batch
of `acquire` calls grants nobody immediately and enqueues the callers in
arrival order; then releasing one permit at a time dequeues exactly those
waiters in their arrival (FIFO) order. Moreover any single `release` with
a nonempty queue grants the head of the queue. -/
theorem semaphore_fifo_order (s : Semaphore) (ids : List ℕ)
    (h0 : s.permits = 0) (hq : s.waitQueue = []) :
    (s.acquireAll ids).2 = [] ∧
    (s.acquireAll ids).1.waitQueue = ids ∧
    (Semaphore.releaseN ids.length (s.acquireAll ids).1).2 = ids ∧
    ∀ t : Semaphore, ∀ w : ℕ, ∀ rest : List ℕ,
      t.waitQueue = w :: rest → (t.release).2 = some w := by
  obtain ⟨p, wq⟩ := s
  simp only at h0 hq
  subst h0; subst hq
  refine ⟨?_, ?_, ?_, ?_⟩
  · simp [acquireAll_no_permits]
  · simp [acquireAll_no_permits]
  · rw [acquireAll_no_permits]
    simpa using releaseN_no_permits ids
  · intro t w rest ht
    obtain ⟨tp, tq⟩ := t
    simp only at ht
    subst ht
    simp [Semaphore.release]

theorem semaphore_fifo_order_witness :
    ((Semaphore.mk 0 []).acquireAll [10, 20, 30]).2 = [] ∧
    ((Semaphore.mk 0 []).acquireAll [10, 20, 30]).1.waitQueue = [10, 20, 30] ∧
    (Semaphore.releaseN 3 ((Semaphore.mk 0 []).acquireAll [10, 20, 30]).1).2 = [10, 20, 30] ∧
    ∀ t : Semaphore, ∀ w : ℕ, ∀ rest : List ℕ,
      t.waitQueue = w :: rest → (t.release).2 = some w :=
  semaphore_fifo_order ⟨0, []⟩ [10, 20, 30] rfl rfl

/-! ## Retrying upstream client (openAIService.ts, `chatCompletion`) -/

/-- The `RetryConfig` of the service: `maxRetries`, `baseDelayMs`,
`maxDelayMs` (defaults 6, 500, 15000). -/
structure RetryConfig where
  maxRetries : ℕ
  baseDelayMs : ℕ
  maxDelayMs : ℕ
deriving Repr, DecidableEq

/-- One scripted upstream HTTP response: a 2xx success with a payload, or a
non-2xx with its status, parsed `Retry-After` header (`none` when the
header is absent) and body text. -/
inductive UpstreamResponse where
  | ok (payload : String)
  | err (status : ℕ) (retryAfter : Option ℕ) (body : String)
deriving Repr, DecidableEq

/-- The terminal outcome of `chatCompletion`: the returned payload, a thrown
non-retryable classified error, the thrown last error after exhausting
retries, a loop that never ran (`maxRetries = 0`), or a script that ran out
(only reachable with under-length scripts, never used by the theorems). -/
inductive CallResult where
  | success (payload : String)
  | fatalError (status : ℕ)
  | exhaustedError (status : ℕ)
  | noAttempts
  | scriptEnd
deriving Repr, DecidableEq

/-- Source `error.isRetryable = status === 429 || status >= 500`. -/
def isRetryableStatus (status : ℕ) : Bool :=
  status == 429 || decide (500 ≤ status)

/-- JS truthiness of the parsed `Retry-After` value in `if (retryAfter)`:
`undefined` and `0` are falsy. -/
def retryAfterTruthy : Option ℕ → Bool
  | none => false
  | some s => s != 0

/-- The retry loop of `chatCompletion`, from a given attempt number and
current backoff `delay`, consuming one scripted response per attempt.
Returns the terminal outcome and the list of sleep durations (ms) performed
between attempts, in order. Mirrors the source: classify; throw if not
retryable; break without sleeping on the last attempt; otherwise honor a
truthy `Retry-After` (seconds × 1000, `delay` untouched) or sleep
`min(delay, maxDelayMs) + jitter` and double `delay` capped at
`maxDelayMs`. -/
def runFrom (cfg : RetryConfig) (jitter : ℕ → ℕ) :
    ℕ → ℕ → List UpstreamResponse → CallResult × List ℕ
  | _, _, [] => (.scriptEnd, [])
  | attempt, delay, r :: rest =>
    match r with
    | .ok payload => (.success payload, [])
    | .err status retryAfter _ =>
      if !(isRetryableStatus status) then (.fatalError status, [])
      else if attempt = cfg.maxRetries then (.exhaustedError status, [])
      else
        let waitMs : ℕ :=
          if retryAfterTruthy retryAfter then (retryAfter.getD 0) * 1000
          else min delay cfg.maxDelayMs + jitter attempt
        let delay2 : ℕ :=
          if retryAfterTruthy retryAfter then delay
          else min (delay * 2) cfg.maxDelayMs
        let p := runFrom cfg jitter (attempt + 1) delay2 rest
        (p.1, waitMs :: p.2)

/-- Source `chatCompletion`: start at attempt 1 with `delay = baseDelayMs`. -/
def chatCompletion (cfg : RetryConfig) (jitter : ℕ → ℕ)
    (script : List UpstreamResponse) : CallResult × List ℕ :=
  if cfg.maxRetries = 0 then (.noAttempts, [])
  else runFrom cfg jitter 1 cfg.baseDelayMs script

/-- C1: a response with a fatal status (any 4xx other than 429) makes the
client return that classified error immediately after the current attempt:
no retry is consumed, no sleep is performed, the rest of the script is
never touched; and the classifier marks exactly the statuses in
429 ∪ [500, ∞) as retryable. -/
theorem upstream_fatal_no_retry (cfg : RetryConfig) (jitter : ℕ → ℕ)
    (attempt delay status : ℕ) (ra : Option ℕ) (body : String)
    (rest : List UpstreamResponse)
    (h4 : 400 ≤ status) (h5 : status < 500) (hne : status ≠ 429) :
    runFrom cfg jitter attempt delay (.err status ra body :: rest) = (.fatalError status, []) ∧
    (1 ≤ cfg.maxRetries →
      chatCompletion cfg jitter (.err status ra body :: rest) = (.fatalError status, [])) ∧
    isRetryableStatus status = false ∧
    (∀ s : ℕ, isRetryableStatus s = true ↔ (s = 429 ∨ 500 ≤ s)) := by
  have hfalse : isRetryableStatus status = false := by
    simp only [isRetryableStatus, Bool.or_eq_false_iff, beq_eq_false_iff_ne, ne_eq,
      decide_eq_false_iff_not, not_le]
    exact ⟨hne, h5⟩
  refine ⟨?_, ?_, hfalse, ?_⟩
  · simp [runFrom, hfalse]
  · intro h1
    have hm : cfg.maxRetries ≠ 0 := by omega
    simp [chatCompletion, hm, runFrom, hfalse]
  · intro s
    simp [isRetryableStatus]

theorem upstream_fatal_no_retry_witness :
    runFrom ⟨6, 500, 15000⟩ (fun _ => 0) 1 500 [.err 401 none "unauthorized"]
      = (.fatalError 401, []) ∧
    (1 ≤ (RetryConfig.mk 6 500 15000).maxRetries →
      chatCompletion ⟨6, 500, 15000⟩ (fun _ => 0) [.err 401 none "unauthorized"]
        = (.fatalError 401, [])) ∧
    isRetryableStatus 401 = false ∧
    (∀ s : ℕ, isRetryableStatus s = true ↔ (s = 429 ∨ 500 ≤ s)) :=
  upstream_fatal_no_retry ⟨6, 500, 15000⟩ (fun _ => 0) 1 500 401 none "unauthorized" []
    (by norm_num) (by norm_num) (by norm_num)

/-- C4 counterexample: with the default config and a scripted
`429, Retry-After: 0` first response, the client does not wait
`0 × 1000 = 0` ms; the parsed hint `0` is falsy in `if (retryAfter)`, so
the exponential-backoff branch runs and the wait is 500 ms. -/
theorem retryAfter_zero_not_honored :
    (chatCompletion ⟨6, 500, 15000⟩ (fun _ => 0)
      [.err 429 (some 0) "", .ok "x"]).2 = [500] ∧ (500 : ℕ) ≠ 0 * 1000 := by
  decide

/-- C4 (amended): for every retryable response carrying a positive
`Retry-After` hint of `s` seconds, when attempts remain the client waits
exactly `s × 1000` ms — no jitter, no backoff component — and the backoff
state `delay` is left untouched for subsequent attempts. (A hint of `0`
seconds is falsy in the source's `if (retryAfter)` and is treated as
absent.) -/
theorem upstream_honors_positive_retryAfter (cfg : RetryConfig) (jitter : ℕ → ℕ)
    (attempt delay status s : ℕ) (body : String) (rest : List UpstreamResponse)
    (hs : 1 ≤ s) (hst : status = 429 ∨ 500 ≤ status) (hrem : attempt ≠ cfg.maxRetries) :
    runFrom cfg jitter attempt delay (.err status (some s) body :: rest) =
      ((runFrom cfg jitter (attempt + 1) delay rest).1,
        s * 1000 :: (runFrom cfg jitter (attempt + 1) delay rest).2) := by
  have htrue : isRetryableStatus status = true := by
    simp only [isRetryableStatus, Bool.or_eq_true, beq_iff_eq, decide_eq_true_eq]
    exact hst
  have htruthy : retryAfterTruthy (some s) = true := by
    simp only [retryAfterTruthy, ne_eq, bne_iff_ne]
    omega
  simp [runFrom, htrue, hrem, htruthy]

theorem upstream_honors_positive_retryAfter_witness :
    runFrom ⟨6, 500, 15000⟩ (fun _ => 0) 1 500 [.err 429 (some 3) "", .ok "x"] =
      ((runFrom ⟨6, 500, 15000⟩ (fun _ => 0) 2 500 [.ok "x"]).1,
        3 * 1000 :: (runFrom ⟨6, 500, 15000⟩ (fun _ => 0) 2 500 [.ok "x"]).2) :=
  upstream_honors_positive_retryAfter ⟨6, 500, 15000⟩ (fun _ => 0) 1 500 429 3 "" [.ok "x"]
    (by norm_num) (Or.inl rfl) (by norm_num)

/-- C5 counterexample: script `[429 with Retry-After 7, 429 with no hint,
200]`, default config, zero jitter. The second attempt fails retryably with
no hint, so the claim predicts a sleep of
`min(500 × 2^(2−1), 15000) + jitter ≥ 1000` ms; the code slept 500 ms,
because `delay` doubles only on no-hint attempts and attempt 1 honored its
hint instead. -/
theorem backoff_power_counterexample :
    (chatCompletion ⟨6, 500, 15000⟩ (fun _ => 0)
      [.err 429 (some 7) "", .err 429 none "", .ok "x"]).2 = [7000, 500] ∧
    (500 : ℕ) < min (500 * 2 ^ (2 - 1)) 15000 := by
  decide

/-- A scripted response that is retryable and carries no `Retry-After`
hint — the only kind that exercises the exponential-backoff branch. -/
def RetryableNoHint : UpstreamResponse → Prop
  | .err status none _ => status = 429 ∨ 500 ≤ status
  | _ => False

theorem min_double_pow (d M k : ℕ) :
    min (min (d * 2) M * 2 ^ k) M = min (d * 2 ^ (k + 1)) M := by
  have hpow : d * 2 * 2 ^ k = d * 2 ^ (k + 1) := by rw [pow_succ]; ring
  rcases le_total (d * 2) M with h | h
  · rw [min_eq_left h, hpow]
  · have h2k : (0 : ℕ) < 2 ^ k := pow_pos (by norm_num) k
    rw [min_eq_right h]
    have h1 : M ≤ M * 2 ^ k := Nat.le_mul_of_pos_right M h2k
    have h2 : M ≤ d * 2 ^ (k + 1) := by
      rw [← hpow]
      exact le_trans h (Nat.le_mul_of_pos_right _ h2k)
    rw [min_eq_right h1, min_eq_right h2]

/-- After a prefix of retryable no-hint failures, the sleep taken for the
next no-hint retryable failure is `min(delay₀ × 2^k, maxDelayMs)` plus the
jitter drawn at that attempt, where `k` is the prefix length. -/
theorem runFrom_nth_backoff (cfg : RetryConfig) (jitter : ℕ → ℕ)
    (pre : List UpstreamResponse) :
    ∀ (attempt delay status : ℕ) (body : String) (rest : List UpstreamResponse),
    (∀ e ∈ pre, RetryableNoHint e) → (status = 429 ∨ 500 ≤ status) →
    attempt + pre.length < cfg.maxRetries →
    (runFrom cfg jitter attempt delay (pre ++ .err status none body :: rest)).2.get? pre.length
      = some (min (delay * 2 ^ pre.length) cfg.maxDelayMs + jitter (attempt + pre.length)) := by
  induction pre with
  | nil =>
    intro attempt delay status body rest _ hst hrem
    have htrue : isRetryableStatus status = true := by
      simp only [isRetryableStatus, Bool.or_eq_true, beq_iff_eq, decide_eq_true_eq]
      exact hst
    have hne : attempt ≠ cfg.maxRetries := by simp at hrem; omega
    simp [runFrom, htrue, hne, retryAfterTruthy]
  | cons e pre' ih =>
    intro attempt delay status body rest hpre hst hrem
    have he : RetryableNoHint e := hpre e (List.mem_cons_self _ _)
    cases e with
    | ok p => exact absurd he (by simp [RetryableNoHint])
    | err st ra b =>
      cases ra with
      | some s => exact absurd he (by simp [RetryableNoHint])
      | none =>
        have htrue : isRetryableStatus st = true := by
          simp only [isRetryableStatus, Bool.or_eq_true, beq_iff_eq, decide_eq_true_eq]
          exact he
        have hne : attempt ≠ cfg.maxRetries := by simp at hrem; omega
        have hrec := ih (attempt + 1) (min (delay * 2) cfg.maxDelayMs) status body rest
          (fun e' he' => hpre e' (List.mem_cons_of_mem _ he'))
          hst (by simp at hrem ⊢; omega)
        simp only [List.cons_append, runFrom, htrue, Bool.not_true, Bool.false_eq_true,
          if_false, hne, ite_false, retryAfterTruthy, List.length_cons]
        simp only [List.get?_cons_succ, List.append_eq] at hrec ⊢
        rw [hrec, min_double_pow]
        have harg : attempt + 1 + pre'.length = attempt + (pre'.length + 1) := by omega
        rw [harg]

/-- C5 (amended): when attempt `n = pre.length + 1` fails retryably with no
`Retry-After` hint, attempts remain, and every earlier attempt also failed
retryably without a hint, the client sleeps exactly
`min(baseDelayMs × 2^(n−1), maxDelayMs)` plus the jitter drawn at that
attempt, which is in `[0, 250)`. (If some earlier attempt honored a
`Retry-After` hint, the exponent counts only the no-hint attempts, because
`delay` doubles only on the backoff branch.) -/
theorem upstream_backoff_doubling (cfg : RetryConfig) (jitter : ℕ → ℕ)
    (pre : List UpstreamResponse) (status : ℕ) (body : String)
    (rest : List UpstreamResponse)
    (hpre : ∀ e ∈ pre, RetryableNoHint e) (hst : status = 429 ∨ 500 ≤ status)
    (hrem : 1 + pre.length < cfg.maxRetries) (hjit : ∀ i, jitter i < 250) :
    (chatCompletion cfg jitter (pre ++ .err status none body :: rest)).2.get? pre.length
      = some (min (cfg.baseDelayMs * 2 ^ pre.length) cfg.maxDelayMs
          + jitter (1 + pre.length)) ∧
    jitter (1 + pre.length) < 250 := by
  have hm : cfg.maxRetries ≠ 0 := by omega
  refine ⟨?_, hjit _⟩
  simp only [chatCompletion, hm, ite_false, if_false]
  exact runFrom_nth_backoff cfg jitter pre 1 cfg.baseDelayMs status body rest hpre hst hrem

theorem upstream_backoff_doubling_witness :
    (chatCompletion ⟨6, 500, 15000⟩ (fun _ => 7)
        ([UpstreamResponse.err 500 none "a"] ++ .err 429 none "b" :: [.ok "x"])).2.get? 1
      = some (min (500 * 2 ^ 1) 15000 + 7) ∧ (7 : ℕ) < 250 := by
  have h := upstream_backoff_doubling ⟨6, 500, 15000⟩ (fun _ => 7)
    [UpstreamResponse.err 500 none "a"] 429 "b" [.ok "x"]
    (by
      intro e he
      rw [List.mem_singleton] at he
      subst he
      show (500 = 429 ∨ 500 ≤ 500)
      exact Or.inr le_rfl)
    (Or.inl rfl) (by norm_num) (fun i => by norm_num)
  simpa using h

/-! ## Request validator (validate.ts) -/

/-- A parsed JSON value, as `request.json()` can produce. -/
inductive JVal where
  | str (s : String)
  | num (q : ℚ)
  | bool (b : Bool)
  | arr (elems : List JVal)
  | obj (fields : List (String × JVal))
  | null

/-- JS truthiness of a JSON value (`NaN` is not representable in JSON). -/
def truthy : JVal → Bool
  | .str s => s ≠ ""
  | .num q => q ≠ 0
  | .bool b => b
  | .arr _ => true
  | .obj _ => true
  | .null => false

/-- The test `typeof v === 'object'` (true for objects, arrays and null). -/
def isObjectType : JVal → Bool
  | .obj _ => true
  | .arr _ => true
  | .null => true
  | _ => false

def lookupField : List (String × JVal) → String → Option JVal
  | [], _ => none
  | (k, v) :: rest, name => if k = name then some v else lookupField rest name

/-- Property access `v.name`: defined on objects, `undefined` (`none`)
elsewhere (the modelled code only reads properties of objects/arrays). -/
def getField : JVal → String → Option JVal
  | .obj fields, name => lookupField fields name
  | _, _ => none

/-- Rest-destructuring `const { deployment: _, ...rest } = body`: drop the
named key from an object (the orchestrator only applies this to objects,
since non-objects fail the earlier deployment check). -/
def removeField : JVal → String → JVal
  | .obj fields, name => .obj (fields.filter (fun kv => kv.1 ≠ name))
  | v, _ => v

/-- JS truthiness of an optional value: `undefined` is falsy. -/
def optTruthy : Option JVal → Bool
  | none => false
  | some v => truthy v

/-- Source `String.prototype.trim()`: strip whitespace from both ends. -/
def jsTrim (s : String) : String :=
  ⟨((s.data.dropWhile Char.isWhitespace).reverse.dropWhile Char.isWhitespace).reverse⟩

/-- Source `String.prototype.slice(0, n)`: the first `n` characters. -/
def jsSlice (s : String) (n : ℕ) : String :=
  ⟨s.data.take n⟩

/-- Contiguous-sublist test on character lists. -/
def infixOf (needle : List Char) : List Char → Bool
  | [] => needle.isEmpty
  | c :: t => needle.isPrefixOf (c :: t) || infixOf needle t

/-- Source `String.prototype.includes(sub)`. -/
def strContains (s sub : String) : Bool :=
  infixOf sub.data s.data

/-- A validated chat message (`role`, trimmed `content`). -/
structure ChatMessage where
  role : String
  content : String
deriving Repr, DecidableEq

/-- The sanitized `stop` field: a single string or a (filtered) array. -/
inductive StopVal where
  | one (s : String)
  | many (ss : List String)
deriving Repr, DecidableEq

/-- The sanitized `ChatCompletionRequest` assembled by the validator
(allow-list: only recognized fields appear). -/
structure ChatCompletionRequest where
  messages : List ChatMessage
  max_tokens : Option ℚ := none
  temperature : Option ℚ := none
  top_p : Option ℚ := none
  frequency_penalty : Option ℚ := none
  presence_penalty : Option ℚ := none
  stop : Option StopVal := none
deriving Repr, DecidableEq

/-- The `ValidationResult` of `RequestValidator.validate`. -/
inductive ValidationResult where
  | ok (sanitizedRequest : ChatCompletionRequest)
  | error (msg : String)
deriving Repr, DecidableEq

def ValidationResult.isOk : ValidationResult → Bool
  | .ok _ => true
  | .error _ => false

def MAX_MESSAGES : ℕ := 50
def MAX_MESSAGE_LENGTH : ℕ := 4000
def MAX_TOKENS : ℕ := 4000

/-- JS `Number(v)` coercion, with `none` standing for `NaN`. The primitive
cases are fixed by the spec of `Number`; string parsing and object
`ToPrimitive` coercion are abstracted as the parameter `c`. -/
def toNumber (c : JVal → Option ℚ) : JVal → Option ℚ
  | .num q => some q
  | .bool b => some (if b then 1 else 0)
  | .null => some 0
  | v => c v

/-- The check `['system', 'user', 'assistant'].includes(role)`. -/
def validRole (r : String) : Bool :=
  r == "system" || r == "user" || r == "assistant"

/-- The message-validation loop: each element must be a (truthy) object
with a valid role and a nonempty string content of bounded length; contents
are trimmed. `i` is the reported index. -/
def validateMessages : List JVal → ℕ → Except String (List ChatMessage)
  | [], _ => .ok []
  | m :: rest, i =>
    if !(truthy m) || !(isObjectType m) then
      .error ("Message " ++ toString i ++ " must be an object")
    else
      match getField m "role" with
      | some (.str r) =>
        if validRole r then
          match getField m "content" with
          | some (.str content) =>
            if content = "" then
              .error ("Message " ++ toString i ++ " must have content as a string")
            else if MAX_MESSAGE_LENGTH < content.length then
              .error ("Message " ++ toString i ++ " content too long (max: 4000)")
            else
              match validateMessages rest (i + 1) with
              | .error e => .error e
              | .ok tail => .ok (⟨r, jsTrim content⟩ :: tail)
          | _ => .error ("Message " ++ toString i ++ " must have content as a string")
        else
          .error ("Message " ++ toString i ++ " must have a valid role (system, user, assistant)")
      | _ => .error ("Message " ++ toString i ++ " must have a valid role (system, user, assistant)")

/-- Check one optional numeric parameter: absent fields are skipped,
present fields must coerce to a number inside `lo..hi`. -/
def checkParam (c : JVal → Option ℚ) (v : Option JVal) (lo hi : ℚ) (emsg : String) :
    Except String (Option ℚ) :=
  match v with
  | none => .ok none
  | some jv =>
    match toNumber c jv with
    | none => .error emsg
    | some q => if q < lo ∨ hi < q then .error emsg else .ok (some q)

/-- The check `requestBody.stream === true`. -/
def isStreamTrue : Option JVal → Bool
  | some (.bool true) => true
  | _ => false

/-- The array filter `stop.filter(s => typeof s === 'string' && s.length > 0)`. -/
def stopFilter : JVal → Option String
  | .str s => if 0 < s.length then some s else none
  | _ => none

/-- The `stop` handling: arrays longer than 4 are rejected, shorter arrays
are kept with non-string and empty elements filtered out; a nonempty string
is kept; anything else is rejected. -/
def checkStop : Option JVal → Except String (Option StopVal)
  | none => .ok none
  | some (.arr xs) =>
    if 4 < xs.length then .error "stop array cannot have more than 4 sequences"
    else .ok (some (.many (xs.filterMap stopFilter)))
  | some (.str s) =>
    if 0 < s.length then .ok (some (.one s))
    else .error "stop must be a string or array of strings"
  | some _ => .error "stop must be a string or array of strings"

/-- Source `RequestValidator.validate`, check for check in source order. `c` is
the abstracted string/object `Number()` coercion. -/
def validateCore (c : JVal → Option ℚ) (b : JVal) : Except String ChatCompletionRequest :=
  if !(truthy b) || !(isObjectType b) then
    .error "Request body must be a JSON object"
  else
    match getField b "messages" with
    | some (.arr msgsArr) =>
      if msgsArr.length = 0 then .error "At least one message is required"
      else if MAX_MESSAGES < msgsArr.length then .error "Too many messages (max: 50)"
      else
        match validateMessages msgsArr 0 with
        | .error e => .error e
        | .ok messages =>
          match checkParam c (getField b "max_tokens") 1 4000
              "max_tokens must be between 1 and 4000" with
          | .error e => .error e
          | .ok mt =>
            match checkParam c (getField b "temperature") 0 2
                "temperature must be between 0 and 2" with
            | .error e => .error e
            | .ok temp =>
              match checkParam c (getField b "top_p") 0 1
                  "top_p must be between 0 and 1" with
              | .error e => .error e
              | .ok tp =>
                match checkParam c (getField b "frequency_penalty") (-2) 2
                    "frequency_penalty must be between -2 and 2" with
                | .error e => .error e
                | .ok fp =>
                  match checkParam c (getField b "presence_penalty") (-2) 2
                      "presence_penalty must be between -2 and 2" with
                  | .error e => .error e
                  | .ok pp =>
                    match checkStop (getField b "stop") with
                    | .error e => .error e
                    | .ok stop =>
                      if isStreamTrue (getField b "stream") then
                        .error "Streaming is not supported through the proxy"
                      else
                        .ok { messages := messages, max_tokens := mt, temperature := temp,
                              top_p := tp, frequency_penalty := fp, presence_penalty := pp,
                              stop := stop }
    | _ => .error "Messages array is required"

/-- The result of `validateCore` packaged as the source's `ValidationResult`. -/
def RequestValidator.validate (c : JVal → Option ℚ) (b : JVal) : ValidationResult :=
  match validateCore c b with
  | .ok r => .ok r
  | .error e => .error e

/-- A request body that is valid except for whatever `stop` array it is
given: one well-formed message plus `stop`. -/
def stopProbe (xs : List JVal) : JVal :=
  .obj [("messages", .arr [.obj [("role", .str "user"), ("content", .str "hi")]]),
        ("stop", .arr xs)]

theorem validateCore_stop_long (c : JVal → Option ℚ) (b : JVal) (xs : List JVal)
    (hstop : getField b "stop" = some (.arr xs)) (hlen : 4 < xs.length) :
    ∃ e, validateCore c b = .error e := by
  unfold validateCore
  rw [hstop]
  simp only [checkStop, if_pos hlen]
  split
  all_goals try split
  all_goals try split
  all_goals try split
  all_goals try split
  all_goals try split
  all_goals try split
  all_goals try split
  all_goals try split
  all_goals try split
  all_goals exact ⟨_, rfl⟩

theorem validate_rejects_long_stop (c : JVal → Option ℚ) (b : JVal) (xs : List JVal)
    (hstop : getField b "stop" = some (.arr xs)) (hlen : 4 < xs.length) :
    (RequestValidator.validate c b).isOk = false := by
  obtain ⟨e, he⟩ := validateCore_stop_long c b xs hstop hlen
  unfold RequestValidator.validate
  rw [he]
  rfl

theorem validate_filters_stop (c : JVal → Option ℚ) (xs : List JVal)
    (hlen : xs.length ≤ 4) :
    RequestValidator.validate c (stopProbe xs) =
      .ok { messages := [⟨"user", "hi"⟩],
            stop := some (.many (xs.filterMap stopFilter)) } := by
  have hnl : ¬(4 < xs.length) := Nat.not_lt.mpr hlen
  have hmsg : validateMessages [JVal.obj [("role", JVal.str "user"),
      ("content", JVal.str "hi")]] 0 = .ok [⟨"user", "hi"⟩] := rfl
  unfold RequestValidator.validate validateCore stopProbe
  simp [getField, lookupField, truthy, isObjectType, hmsg, checkParam, checkStop,
    isStreamTrue, MAX_MESSAGES, hnl]

/-- C8 counterexample: a request whose `stop` array contains a number and
an empty string — elements that are not non-empty strings — is accepted,
with the offending elements silently filtered out of the sanitized
request, rather than rejected. -/
theorem validator_stop_counterexample :
    RequestValidator.validate (fun _ => none)
        (stopProbe [JVal.str "a", .num 5, .str ""]) =
      .ok { messages := [⟨"user", "hi"⟩], stop := some (.many ["a"]) } := rfl

/-- C8 (amended): for a `stop` array, only the length bound is enforced —
an array of more than 4 elements is rejected (whatever the rest of the
body), while an array of at most 4 elements is accepted with its
non-string and empty-string elements silently filtered out of the
sanitized request, not rejected. -/
theorem validator_stop_semantics :
    (∀ (c : JVal → Option ℚ) (b : JVal) (xs : List JVal),
      getField b "stop" = some (.arr xs) → 4 < xs.length →
      (RequestValidator.validate c b).isOk = false) ∧
    (∀ (c : JVal → Option ℚ) (xs : List JVal), xs.length ≤ 4 →
      RequestValidator.validate c (stopProbe xs) =
        .ok { messages := [⟨"user", "hi"⟩],
              stop := some (.many (xs.filterMap stopFilter)) }) :=
  ⟨validate_rejects_long_stop, validate_filters_stop⟩

theorem validator_stop_semantics_witness :
    (RequestValidator.validate (fun _ => none)
      (stopProbe [JVal.str "a", .str "b", .str "c", .str "d", .str "e"])).isOk = false ∧
    RequestValidator.validate (fun _ => none) (stopProbe [JVal.str "u", .num 7]) =
      .ok { messages := [⟨"user", "hi"⟩], stop := some (.many ["u"]) } := by
  constructor
  · exact validator_stop_semantics.1 (fun _ => none) _
      [JVal.str "a", .str "b", .str "c", .str "d", .str "e"] rfl (by norm_num)
  · exact validator_stop_semantics.2 (fun _ => none) [JVal.str "u", .num 7] (by norm_num)

/-! ## Proxy orchestrator (openaiProxy.ts) -/

/-- One idempotency-cache entry: the stored success envelope and its
insertion time. -/
structure CacheEntry where
  response : String
  timestamp : ℤ
deriving Repr, DecidableEq

def lookupCache : List (String × CacheEntry) → String → Option CacheEntry
  | [], _ => none
  | (k, e) :: rest, key => if k = key then some e else lookupCache rest key

/-- What the awaited upstream call does: return a payload, or throw an
`AOAIError`-like value with an optional HTTP status (config and network
failures carry no status). -/
inductive UpstreamOutcome where
  | success (payload : String)
  | thrown (status : Option ℕ) (message : String)

/-- The JSON body of a proxy response. -/
inductive ResponseBody where
  | empty
  | cached (raw : String)
  | successEnvelope (data : String)
  | errorEnvelope (error : String) (errorType : Option String) (detail : Option String)
deriving Repr, DecidableEq

/-- A proxy HTTP response: status, optional `Retry-After` header value,
and body. -/
structure ProxyResponse where
  status : ℕ
  retryAfter : Option String := none
  body : ResponseBody := .empty
deriving Repr, DecidableEq

/-- The catch-block mapping of a thrown error (`openaiProxy.ts` lines
277-341): status 429 or ≥500 → 429 with `Retry-After: 5`; other truthy
4xx → the content-policy 400 or a 502 with detail truncated to 300
characters; everything else → generic 500. -/
def handleProxyError (status : Option ℕ) (message : String) : ProxyResponse :=
  match status with
  | some s =>
    if s = 429 ∨ 500 ≤ s then
      { status := 429, retryAfter := some "5",
        body := .errorEnvelope
          "Upstream service is temporarily unavailable. Please try again later." none none }
    else if 400 ≤ s ∧ s < 500 then
      if s = 400 ∧ strContains message "content management policy" then
        { status := 400,
          body := .errorEnvelope "Content filtered by Azure OpenAI policy"
            (some "content_filter")
            (some "The request was filtered due to content policy. Consider skipping this transaction or marking it as uncategorized.") }
      else
        { status := 502,
          body := .errorEnvelope "Invalid request to upstream service" none
            (some (jsSlice message 300)) }
    else { status := 500, body := .errorEnvelope "Internal server error" none none }
  | none => { status := 500, body := .errorEnvelope "Internal server error" none none }

/-- The idempotency lookup: a truthy `Idempotency-Key` header whose cache
entry is younger than 5 minutes yields the cached response. -/
def idempotentHit (cache : List (String × CacheEntry)) (key : Option String) (now : ℤ) :
    Option String :=
  match key with
  | none => none
  | some k =>
    if k = "" then none
    else
      match lookupCache cache k with
      | none => none
      | some e => if now - e.timestamp < 300000 then some e.response else none

/-- The inbound request as the orchestrator sees it: method, `origin`
header, `idempotency-key` header, parsed JSON body, and the user id
extracted by `RequestValidator.extractUserId`. -/
structure ProxyRequest where
  method : String
  origin : Option String
  idempotencyKey : Option String
  body : JVal
  userId : String

/-- The `openaiProxy` handler as a function of its environment: the
configured origin allow-list, the rate-limiter state, the idempotency
cache, the clock, the abstracted `Number()` coercion, and the outcome of
the upstream call. Follows the source's order: method, origin allow-list,
global then per-user rate limit, body presence, idempotency lookup,
deployment presence, validation, upstream call with error mapping. -/
def openaiProxy (allowedOrigins : List String) (rl : RateLimiter)
    (cache : List (String × CacheEntry)) (now : ℤ) (coerce : JVal → Option ℚ)
    (upstream : UpstreamOutcome) (req : ProxyRequest) : ProxyResponse :=
  if req.method = "OPTIONS" then { status := 200 }
  else if req.method ≠ "POST" then
    { status := 405, body := .errorEnvelope "Method not allowed" none none }
  else if req.origin.getD "" ≠ "" ∧ allowedOrigins.contains (req.origin.getD "") = false then
    { status := 403, body := .errorEnvelope "Origin not allowed" none none }
  else if (rl.allow "global" 1 now).2 = false then
    { status := 429, retryAfter := some "2",
      body := .errorEnvelope "Global rate limit exceeded. Try again later." none none }
  else if (((rl.allow "global" 1 now).1).allow ("user:" ++ req.userId) 1 now).2 = false then
    { status := 429, retryAfter := some "2",
      body := .errorEnvelope "User rate limit exceeded. Try again later." none none }
  else if truthy req.body = false then
    { status := 400, body := .errorEnvelope "Request body is required" none none }
  else
    match idempotentHit cache req.idempotencyKey now with
    | some r => { status := 200, body := .cached r }
    | none =>
      if optTruthy (getField req.body "deployment") = false then
        { status := 400, body := .errorEnvelope "Deployment name is required" none none }
      else
        match RequestValidator.validate coerce (removeField req.body "deployment") with
        | .error e => { status := 400, body := .errorEnvelope e none none }
        | .ok _ =>
          match upstream with
          | .success payload => { status := 200, body := .successEnvelope payload }
          | .thrown st msg => handleProxyError st msg

theorem handleProxyError_not_403 (st : Option ℕ) (m : String) :
    (handleProxyError st m).status ≠ 403 := by
  unfold handleProxyError
  split
  · split
    · simp
    · split
      · split
        · simp
        · simp
      · simp
  · simp

/-- C9: when the `Origin` header is absent or empty, the orchestrator never
returns 403 — the allow-list is consulted only for a nonempty origin
(`if (origin && !isOriginAllowed(origin))`). -/
theorem origin_absent_never_403 (allowedOrigins : List String) (rl : RateLimiter)
    (cache : List (String × CacheEntry)) (now : ℤ) (coerce : JVal → Option ℚ)
    (upstream : UpstreamOutcome) (req : ProxyRequest)
    (horig : req.origin = none ∨ req.origin = some "") :
    (openaiProxy allowedOrigins rl cache now coerce upstream req).status ≠ 403 := by
  have h0 : req.origin.getD "" = "" := by rcases horig with h | h <;> simp [h]
  unfold openaiProxy
  rw [h0]
  simp only [ne_eq, not_true_eq_false, false_and, if_false]
  split
  · simp
  · split
    · simp
    · split
      · simp
      · split
        · simp
        · split
          · simp
          · split
            · simp
            · split
              · simp
              · split
                · simp
                · split
                  · simp
                  · exact handleProxyError_not_403 _ _

theorem origin_absent_never_403_witness :
    (openaiProxy [] (RateLimiter.init 8 2) [] 0 (fun _ => none) (.success "p")
      ⟨"POST", none, none, .null, "u"⟩).status ≠ 403 :=
  origin_absent_never_403 [] (RateLimiter.init 8 2) [] 0 (fun _ => none) (.success "p")
    ⟨"POST", none, none, .null, "u"⟩ (Or.inl rfl)

theorem jsSlice_length_le (s : String) (n : ℕ) : (jsSlice s n).length ≤ n := by
  show (s.data.take n).length ≤ n
  simp [List.length_take]

/-- C7: the orchestrator's mapping of a classified upstream failure:
status 429 or any 5xx becomes a 429 response with `Retry-After: 5`; any
other 4xx becomes a 502 whose detail is the message truncated to at most
300 characters; except that a 400 whose message contains the
content-policy substring becomes a 400 carrying the `content_filter`
error-type marker. -/
theorem upstream_error_mapping (s : ℕ) (msg : String) :
    ((s = 429 ∨ 500 ≤ s) → handleProxyError (some s) msg =
      { status := 429, retryAfter := some "5",
        body := .errorEnvelope
          "Upstream service is temporarily unavailable. Please try again later." none none }) ∧
    (400 ≤ s → s < 500 → s ≠ 429 →
      (¬(s = 400 ∧ strContains msg "content management policy" = true) →
        handleProxyError (some s) msg =
          { status := 502, retryAfter := none,
            body := .errorEnvelope "Invalid request to upstream service" none
              (some (jsSlice msg 300)) } ∧
        (jsSlice msg 300).length ≤ 300) ∧
      ((s = 400 ∧ strContains msg "content management policy" = true) →
        handleProxyError (some s) msg =
          { status := 400, retryAfter := none,
            body := .errorEnvelope "Content filtered by Azure OpenAI policy"
              (some "content_filter")
              (some "The request was filtered due to content policy. Consider skipping this transaction or marking it as uncategorized.") })) := by
  constructor
  · intro h
    unfold handleProxyError
    dsimp only
    rw [if_pos h]
  · intro h4 h5 hne
    have hnot : ¬(s = 429 ∨ 500 ≤ s) := by omega
    have hyes : 400 ≤ s ∧ s < 500 := ⟨h4, h5⟩
    constructor
    · intro hpol
      refine ⟨?_, jsSlice_length_le msg 300⟩
      unfold handleProxyError
      dsimp only
      rw [if_neg hnot, if_pos hyes, if_neg hpol]
    · intro hpol
      unfold handleProxyError
      dsimp only
      rw [if_neg hnot, if_pos hyes, if_pos hpol]

theorem upstream_error_mapping_witness :
    handleProxyError (some 503) "boom" =
      { status := 429, retryAfter := some "5",
        body := .errorEnvelope
          "Upstream service is temporarily unavailable. Please try again later." none none } ∧
    handleProxyError (some 404) "nope" =
      { status := 502, retryAfter := none,
        body := .errorEnvelope "Invalid request to upstream service" none
          (some (jsSlice "nope" 300)) } := by
  constructor
  · exact (upstream_error_mapping 503 "boom").1 (Or.inr (by norm_num))
  · exact (((upstream_error_mapping 404 "nope").2 (by norm_num) (by norm_num)
      (by norm_num)).1 (by simp)).1

/-- C6 counterexample: a POST request whose body lacks any `deployment`
field but whose `Idempotency-Key` has a live cache entry receives the
cached 200 response, not the 400 — the idempotency lookup runs before the
missing-deployment check. -/
theorem idempotency_preempts_deployment_check :
    openaiProxy [] (RateLimiter.init 8 2) [("k", ⟨"CACHED", 0⟩)] 1000 (fun _ => none)
        (.success "S") ⟨"POST", none, some "k", .obj [], "u"⟩ =
      { status := 200, retryAfter := none, body := .cached "CACHED" } ∧
    optTruthy (getField (JVal.obj []) "deployment") = false := by
  constructor
  · have hap : ("user:" ++ "u" : String) = "user:u" := rfl
    unfold openaiProxy
    simp only [hap]
    simp [RateLimiter.init, RateLimiter.allow, lookupBucket, RateLimiter.freshBucket,
      RateLimiter.capacityFor, refillBucket, truthy, idempotentHit, lookupCache]
  · rfl

/-- C6 (amended): the idempotency-cache lookup precedes the
missing-deployment check. For a POST request passing the origin and rate
gates with a truthy body: if no live idempotency hit exists, a missing
`deployment` field yields the 400 `Deployment name is required` response;
but when a live cache hit exists, the cached response is returned with
status 200 even if `deployment` is missing. -/
theorem deployment_check_after_idempotency (allowedOrigins : List String) (rl : RateLimiter)
    (cache : List (String × CacheEntry)) (now : ℤ) (coerce : JVal → Option ℚ)
    (upstream : UpstreamOutcome) (req : ProxyRequest)
    (hm : req.method = "POST")
    (horig : req.origin.getD "" = "" ∨ allowedOrigins.contains (req.origin.getD "") = true)
    (hg : (rl.allow "global" 1 now).2 = true)
    (hu : (((rl.allow "global" 1 now).1).allow ("user:" ++ req.userId) 1 now).2 = true)
    (hbody : truthy req.body = true)
    (hdep : optTruthy (getField req.body "deployment") = false) :
    (idempotentHit cache req.idempotencyKey now = none →
      openaiProxy allowedOrigins rl cache now coerce upstream req =
        { status := 400, retryAfter := none,
          body := .errorEnvelope "Deployment name is required" none none }) ∧
    (∀ r, idempotentHit cache req.idempotencyKey now = some r →
      openaiProxy allowedOrigins rl cache now coerce upstream req =
        { status := 200, retryAfter := none, body := .cached r }) := by
  have hoc : ¬(req.origin.getD "" ≠ "" ∧ allowedOrigins.contains (req.origin.getD "") = false) := by
    rcases horig with h | h
    · intro hc; exact hc.1 h
    · intro hc; rw [h] at hc; exact absurd hc.2 (by simp)
  constructor
  · intro hhit
    unfold openaiProxy
    rw [hm, if_neg (by decide : ¬("POST" : String) = "OPTIONS"),
      if_neg (by decide : ¬("POST" : String) ≠ "POST"), if_neg hoc, hg, hu, hbody, hhit, hdep]
    simp
  · intro r hhit
    unfold openaiProxy
    rw [hm, if_neg (by decide : ¬("POST" : String) = "OPTIONS"),
      if_neg (by decide : ¬("POST" : String) ≠ "POST"), if_neg hoc, hg, hu, hbody, hhit]
    simp

theorem deployment_check_after_idempotency_witness :
    openaiProxy [] (RateLimiter.init 8 2) [] 0 (fun _ => none) (.success "S")
        ⟨"POST", none, none, .obj [("x", .null)], "u"⟩ =
      { status := 400, retryAfter := none,
        body := .errorEnvelope "Deployment name is required" none none } := by
  have h := deployment_check_after_idempotency [] (RateLimiter.init 8 2) [] 0
    (fun _ => none) (.success "S") ⟨"POST", none, none, .obj [("x", .null)], "u"⟩
    rfl (Or.inl rfl)
    (by
      simp [RateLimiter.init, RateLimiter.allow, lookupBucket, RateLimiter.freshBucket,
        RateLimiter.capacityFor, refillBucket])
    (by
      have hap : ("user:" ++ "u" : String) = "user:u" := rfl
      simp only [hap]
      simp [RateLimiter.init, RateLimiter.allow, lookupBucket, RateLimiter.freshBucket,
        RateLimiter.capacityFor, refillBucket, setBucket])
    rfl rfl
  exact h.1 rfl
